import Mathlib

/-!
Verification development for the teleskope resource-rendering engine.

This file gives a shallow embedding of the profile-resolution, value
formatting, status classification, path extraction, and relationship-graph
building logic of the frontend (frontend/src/lib/profiles.ts and the
Dashboard component), and proves properties about it.

Modelling conventions:
- JavaScript strings are Lean `String`; all character-level operations
  (lower-casing, trimming, whitespace tests) are modelled for the ASCII
  range, which is the range the source's inputs use.
- Machine numbers are `Int` (JavaScript number arithmetic in the modelled
  code is exact integer arithmetic on millisecond timestamps and list
  lengths, far below 2^53, so no overflow modelling is needed).
- `undefined`/absent values are `Option`; JavaScript truthiness of an
  optional string (`undefined`, `""` falsy) is `jsTruthyStr`.
- Fallible code is `Except`; the `try/catch` in `extractValue` becomes a
  `match` on the `Except` result.
-/

namespace Teleskope

/-- Truthiness of a JavaScript string-or-undefined value: `undefined` and
the empty string are falsy, every other string is truthy. -/
def jsTruthyStr : Option String → Bool
  | none => false
  | some s => !s.isEmpty

/-- The value of `x || ""` for an optional string `x`. -/
def jsOrEmpty : Option String → String
  | none => ""
  | some s => s

/-- Characters stripped by the status normalizer (the JavaScript regexp
class `[\s-]`, restricted to ASCII whitespace) and by `String.prototype.trim`. -/
def jsIsSpace (c : Char) : Bool :=
  c = ' ' || c = '\t' || c = '\n' || c = '\r' || c = '\x0b' || c = '\x0c'

/-- JavaScript `String.prototype.trim`, modelled on the character list
(ASCII whitespace). -/
def jsTrim (s : String) : String :=
  String.mk (((s.data.dropWhile jsIsSpace).reverse.dropWhile jsIsSpace).reverse)

/-- JavaScript `String.prototype.toLowerCase`, modelled for ASCII. -/
def jsToLower (s : String) : String :=
  String.mk (s.data.map Char.toLower)

/- ============================================================
   Profile resolution (frontend/src/lib/profiles.ts)
   ============================================================ -/

/-- Group/Version/Kind triple identifying a resource type. -/
structure GVK where
  group : String
  version : String
  kind : String
deriving DecidableEq

/-- The column value types of `ColumnDefinition.type`. -/
inductive ColumnType where
  | text
  | link
  | age
  | status
  | podEnhancedStatus
  | list
  | boolean
  | number
  | containerStatuses
deriving DecidableEq

/-- One column of a resource profile. -/
structure ColumnDefinition where
  header : String
  path : String
  type : ColumnType
  width : Option String := none
deriving DecidableEq

/-- The action types of `ActionDefinition.type`. -/
inductive ActionType where
  | edit
  | delete
  | view
  | terminal
  | openUrl
  | custom
deriving DecidableEq

/-- One action of a resource profile. -/
structure ActionDefinition where
  label : String
  type : ActionType
deriving DecidableEq

/-- A resolved resource profile: identity, ordered columns, optional actions. -/
structure ResourceProfile where
  gvk : GVK
  columns : List ColumnDefinition
  actions : Option (List ActionDefinition) := none
deriving DecidableEq

/-- The hard-coded native profile table (`NATIVE_PROFILES`), keyed by
`"{group-or-core}/{version}/{kind}"`, in source order. -/
def NATIVE_PROFILES : List (String × ResourceProfile) := [
  ("core/v1/Pod",
    { gvk := ⟨"", "v1", "Pod"⟩,
      columns := [
        ⟨"Status", "$", ColumnType.podEnhancedStatus, some "40px"⟩,
        ⟨"Name", "$.metadata.name", ColumnType.link, none⟩,
        ⟨"Containers", "$.status.containerStatuses[*]", ColumnType.containerStatuses, none⟩,
        ⟨"Node", "$.spec.nodeName", ColumnType.text, none⟩,
        ⟨"Age", "$.metadata.creationTimestamp", ColumnType.age, none⟩],
      actions := some [
        ⟨"View Logs", ActionType.view⟩,
        ⟨"Terminal", ActionType.terminal⟩,
        ⟨"Edit", ActionType.edit⟩,
        ⟨"Delete", ActionType.delete⟩] }),
  ("apps/v1/Deployment",
    { gvk := ⟨"apps", "v1", "Deployment"⟩,
      columns := [
        ⟨"Name", "$.metadata.name", ColumnType.link, none⟩,
        ⟨"Namespace", "$.metadata.namespace", ColumnType.text, none⟩,
        ⟨"Ready", "$.status.readyReplicas", ColumnType.text, none⟩,
        ⟨"Up-to-date", "$.status.updatedReplicas", ColumnType.number, none⟩,
        ⟨"Available", "$.status.availableReplicas", ColumnType.number, none⟩,
        ⟨"Age", "$.metadata.creationTimestamp", ColumnType.age, none⟩],
      actions := some [
        ⟨"Scale", ActionType.custom⟩,
        ⟨"Edit", ActionType.edit⟩,
        ⟨"Delete", ActionType.delete⟩] }),
  ("core/v1/Service",
    { gvk := ⟨"", "v1", "Service"⟩,
      columns := [
        ⟨"Name", "$.metadata.name", ColumnType.link, none⟩,
        ⟨"Namespace", "$.metadata.namespace", ColumnType.text, none⟩,
        ⟨"Type", "$.spec.type", ColumnType.text, none⟩,
        ⟨"Cluster IP", "$.spec.clusterIP", ColumnType.text, none⟩,
        ⟨"External IP", "$.status.loadBalancer.ingress[0].ip", ColumnType.text, none⟩,
        ⟨"Ports", "$.spec.ports[*].port", ColumnType.list, none⟩,
        ⟨"Age", "$.metadata.creationTimestamp", ColumnType.age, none⟩] }),
  ("networking.k8s.io/v1/Ingress",
    { gvk := ⟨"networking.k8s.io", "v1", "Ingress"⟩,
      columns := [
        ⟨"Name", "$.metadata.name", ColumnType.link, none⟩,
        ⟨"Namespace", "$.metadata.namespace", ColumnType.text, none⟩,
        ⟨"Class", "$.spec.ingressClassName", ColumnType.text, none⟩,
        ⟨"Hosts", "$.spec.rules[*].host", ColumnType.list, none⟩,
        ⟨"Address", "$.status.loadBalancer.ingress[0].ip", ColumnType.text, none⟩,
        ⟨"Age", "$.metadata.creationTimestamp", ColumnType.age, none⟩] }),
  ("core/v1/ConfigMap",
    { gvk := ⟨"", "v1", "ConfigMap"⟩,
      columns := [
        ⟨"Name", "$.metadata.name", ColumnType.link, none⟩,
        ⟨"Namespace", "$.metadata.namespace", ColumnType.text, none⟩,
        ⟨"Data", "$.data", ColumnType.text, none⟩,
        ⟨"Age", "$.metadata.creationTimestamp", ColumnType.age, none⟩] }),
  ("core/v1/Secret",
    { gvk := ⟨"", "v1", "Secret"⟩,
      columns := [
        ⟨"Name", "$.metadata.name", ColumnType.link, none⟩,
        ⟨"Namespace", "$.metadata.namespace", ColumnType.text, none⟩,
        ⟨"Type", "$.type", ColumnType.text, none⟩,
        ⟨"Data", "$.data", ColumnType.text, none⟩,
        ⟨"Age", "$.metadata.creationTimestamp", ColumnType.age, none⟩] }),
  ("core/v1/Namespace",
    { gvk := ⟨"", "v1", "Namespace"⟩,
      columns := [
        ⟨"Name", "$.metadata.name", ColumnType.link, none⟩,
        ⟨"Status", "$.status.phase", ColumnType.status, none⟩,
        ⟨"Age", "$.metadata.creationTimestamp", ColumnType.age, none⟩] }),
  ("core/v1/Node",
    { gvk := ⟨"", "v1", "Node"⟩,
      columns := [
        ⟨"Name", "$.metadata.name", ColumnType.link, none⟩,
        ⟨"Status", "$.status.conditions[?(@.type=='Ready')].status", ColumnType.status, none⟩,
        ⟨"Roles", "$.metadata.labels['kubernetes.io/role']", ColumnType.text, none⟩,
        ⟨"Version", "$.status.nodeInfo.kubeletVersion", ColumnType.text, none⟩,
        ⟨"Age", "$.metadata.creationTimestamp", ColumnType.age, none⟩] }),
  ("apps/v1/StatefulSet",
    { gvk := ⟨"apps", "v1", "StatefulSet"⟩,
      columns := [
        ⟨"Name", "$.metadata.name", ColumnType.link, none⟩,
        ⟨"Namespace", "$.metadata.namespace", ColumnType.text, none⟩,
        ⟨"Ready", "$.status.readyReplicas", ColumnType.text, none⟩,
        ⟨"Replicas", "$.spec.replicas", ColumnType.number, none⟩,
        ⟨"Age", "$.metadata.creationTimestamp", ColumnType.age, none⟩] }),
  ("apps/v1/DaemonSet",
    { gvk := ⟨"apps", "v1", "DaemonSet"⟩,
      columns := [
        ⟨"Name", "$.metadata.name", ColumnType.link, none⟩,
        ⟨"Namespace", "$.metadata.namespace", ColumnType.text, none⟩,
        ⟨"Desired", "$.status.desiredNumberScheduled", ColumnType.number, none⟩,
        ⟨"Current", "$.status.currentNumberScheduled", ColumnType.number, none⟩,
        ⟨"Ready", "$.status.numberReady", ColumnType.number, none⟩,
        ⟨"Age", "$.metadata.creationTimestamp", ColumnType.age, none⟩] }),
  ("batch/v1/Job",
    { gvk := ⟨"batch", "v1", "Job"⟩,
      columns := [
        ⟨"Name", "$.metadata.name", ColumnType.link, none⟩,
        ⟨"Namespace", "$.metadata.namespace", ColumnType.text, none⟩,
        ⟨"Completions", "$.status.succeeded", ColumnType.number, none⟩,
        ⟨"Duration", "$.status.completionTime", ColumnType.text, none⟩,
        ⟨"Age", "$.metadata.creationTimestamp", ColumnType.age, none⟩] }),
  ("batch/v1/CronJob",
    { gvk := ⟨"batch", "v1", "CronJob"⟩,
      columns := [
        ⟨"Name", "$.metadata.name", ColumnType.link, none⟩,
        ⟨"Namespace", "$.metadata.namespace", ColumnType.text, none⟩,
        ⟨"Schedule", "$.spec.schedule", ColumnType.text, none⟩,
        ⟨"Suspend", "$.spec.suspend", ColumnType.boolean, none⟩,
        ⟨"Active", "$.status.active.length", ColumnType.number, none⟩,
        ⟨"Last Schedule", "$.status.lastScheduleTime", ColumnType.age, none⟩,
        ⟨"Age", "$.metadata.creationTimestamp", ColumnType.age, none⟩] })]

/-- Generate a profile key from a GVK (`getProfileKey`): the empty group
string (JavaScript falsy) is rewritten to `"core"`. -/
def getProfileKey (gvk : GVK) : String :=
  (if gvk.group = "" then "core" else gvk.group) ++ "/" ++ gvk.version ++ "/" ++ gvk.kind

/-- Fallback generic profile for unknown resource types (`getGenericProfile`). -/
def getGenericProfile (gvk : GVK) : ResourceProfile :=
  { gvk := gvk,
    columns := [
      ⟨"Name", "$.metadata.name", ColumnType.link, none⟩,
      ⟨"Namespace", "$.metadata.namespace", ColumnType.text, none⟩,
      ⟨"Age", "$.metadata.creationTimestamp", ColumnType.age, none⟩] }

/-- Resolve the best profile for a given GVK (`resolveResourceProfile`):
native table first, generic fallback otherwise (the user-profile and
CRD-column tiers are TODO stubs in the source). -/
def resolveResourceProfile (gvk : GVK) : ResourceProfile :=
  match NATIVE_PROFILES.lookup (getProfileKey gvk) with
  | some nativeProfile => nativeProfile
  | none => getGenericProfile gvk

/- ============================================================
   Age formatting (`formatAge`)
   ============================================================ -/

/-- Format a timestamp as a human-readable age (`formatAge`). Timestamps
are modelled as milliseconds since the epoch (`Date.getTime`); a `none`
timestamp models the falsy empty input string. `Math.floor` of a quotient
of integers is `Int.fdiv`. -/
def formatAge (timestamp : Option Int) (nowMs : Int) : String :=
  match timestamp with
  | none => "-"
  | some tsMs =>
    let diffMs := nowMs - tsMs
    let diffSecs := Int.fdiv diffMs 1000
    let diffMins := Int.fdiv diffSecs 60
    let diffHours := Int.fdiv diffMins 60
    let diffDays := Int.fdiv diffHours 24
    if diffDays > 0 then toString diffDays ++ "d"
    else if diffHours > 0 then toString diffHours ++ "h"
    else if diffMins > 0 then toString diffMins ++ "m"
    else toString diffSecs ++ "s"

/-- Modelled from the spec: render a nonnegative age of `secs` whole
seconds using only the largest applicable unit — days if at least one
day, else hours if at least one hour, else minutes if at least one
minute, else seconds. -/
def ageSpecRender (secs : Int) : String :=
  if 86400 ≤ secs then toString (Int.fdiv secs 86400) ++ "d"
  else if 3600 ≤ secs then toString (Int.fdiv secs 3600) ++ "h"
  else if 60 ≤ secs then toString (Int.fdiv secs 60) ++ "m"
  else toString secs ++ "s"

/- ============================================================
   Status classification (`getStatusClass`, `getStatusIcon`,
   `getPodStatus`)
   ============================================================ -/

/-- The normalization shared by the status classifiers:
`status.toLowerCase().replace(/[\s-]/g, "")`. -/
def normalizeStatus (status : String) : String :=
  String.mk ((jsToLower status).data.filter (fun c => !(jsIsSpace c || c = '-')))

/-- Get the CSS class for a status badge (`getStatusClass`), with the
source's branch order and category lists (including the duplicated
`"error"` entry and the `"terminating"` entry of the pending list). -/
def getStatusClass (status : String) : String :=
  let normalized := normalizeStatus status
  if ["running", "active", "healthy", "ready", "true", "succeeded"].contains normalized then
    "running"
  else if ["pending", "progressing", "waiting", "containercreating", "terminating"].contains normalized then
    "pending"
  else if ["failed", "error", "crashloopbackoff", "imagepullbackoff", "false", "terminated", "error"].contains normalized then
    "failed"
  else if ["terminating"].contains normalized then
    "terminating"
  else "unknown"

/-- Get the icon for a status (`getStatusIcon`); unlike `getStatusClass`,
its pending list does not contain `"terminating"`. -/
def getStatusIcon (status : String) : String :=
  let normalized := normalizeStatus status
  if ["running", "active", "healthy", "ready", "true", "succeeded"].contains normalized then
    "✓"
  else if ["pending", "progressing", "waiting", "containercreating"].contains normalized then
    "⟳"
  else if ["failed", "error", "crashloopbackoff", "imagepullbackoff", "false", "terminated", "error"].contains normalized then
    "✕"
  else if ["terminating"].contains normalized then
    "⏸"
  else "?"

/-- The metadata fields of a pod record read by `getPodStatus`. -/
structure PodMetadata where
  deletionTimestamp : Option String
deriving DecidableEq

/-- The status fields of a pod record read by `getPodStatus`. -/
structure PodStatusDoc where
  phase : Option String
deriving DecidableEq

/-- The shape of a pod record as accessed by `getPodStatus`
(`resource.metadata?.deletionTimestamp`, `resource.status?.phase`). -/
structure PodResource where
  metadata : Option PodMetadata
  status : Option PodStatusDoc
deriving DecidableEq

/-- Capitalization used by `getPodStatus`:
`phase.charAt(0).toUpperCase() + phase.slice(1).toLowerCase()` (ASCII). -/
def capFirstLowerRest (s : String) : String :=
  match s.data with
  | [] => ""
  | c :: rest => String.mk (c.toUpper :: rest.map Char.toLower)

/-- Get pod status including termination state (`getPodStatus`). The
source's `if (!resource)` null guard has no counterpart because the
record argument is never null in the embedding. -/
def getPodStatus (resource : PodResource) : String :=
  if jsTruthyStr (resource.metadata.bind PodMetadata.deletionTimestamp) then
    "Terminating"
  else
    let phase := jsTrim (jsOrEmpty (resource.status.bind PodStatusDoc.phase))
    if phase ≠ "" then capFirstLowerRest phase
    else "Unknown"

/- ============================================================
   Path extraction (`extractValue`)
   ============================================================ -/

/-- Untyped JSON-like documents (the `Record` of the data model). -/
inductive Json where
  | null
  | str (s : String)
  | num (n : Int)
  | bool (b : Bool)
  | arr (items : List Json)
  | obj (fields : List (String × Json))

/-- One step of a parsed path expression. -/
inductive PathStep where
  | member (name : String)
  | index (i : Nat)
  | wildcard
deriving DecidableEq

/-- The single-quote character, used as the bracket-member delimiter. -/
def squote : Char := Char.ofNat 39

/-- Modelled from the spec: the path grammar of the external JSONPath
library, restricted to the forms the spec names for the Path Extractor —
dotted member access, `[*]` wildcard over sequences, plus numeric and
quoted bracket access. Filter predicates and any malformed input are
parse errors (the library raises on malformed paths; the caller catches).
The fuel argument bounds recursion by the input length. -/
def parseSteps : Nat → List Char → Except String (List PathStep)
  | _, [] => Except.ok []
  | 0, _ => Except.error "path too long"
  | fuel + 1, '.' :: rest =>
    let name := rest.takeWhile (fun c => !(c = '.' || c = '['))
    if name.isEmpty then Except.error "empty member name"
    else
      match parseSteps fuel (rest.drop name.length) with
      | Except.ok steps => Except.ok (PathStep.member (String.mk name) :: steps)
      | Except.error e => Except.error e
  | fuel + 1, '[' :: rest =>
    match rest with
    | '*' :: ']' :: more =>
      match parseSteps fuel more with
      | Except.ok steps => Except.ok (PathStep.wildcard :: steps)
      | Except.error e => Except.error e
    | c :: more =>
      if c = squote then
        let name := more.takeWhile (fun d => d ≠ squote)
        match more.drop name.length with
        | d :: ']' :: more2 =>
          if d = squote then
            match parseSteps fuel more2 with
            | Except.ok steps => Except.ok (PathStep.member (String.mk name) :: steps)
            | Except.error e => Except.error e
          else Except.error "unterminated quoted member"
        | _ => Except.error "unterminated quoted member"
      else
        let digits := (c :: more).takeWhile Char.isDigit
        if digits.isEmpty then Except.error "unsupported bracket expression"
        else
          match (c :: more).drop digits.length with
          | ']' :: more2 =>
            match parseSteps fuel more2 with
            | Except.ok steps =>
              Except.ok (PathStep.index (String.mk digits).toNat! :: steps)
            | Except.error e => Except.error e
          | _ => Except.error "missing closing bracket"
    | [] => Except.error "missing closing bracket"
  | _, _ => Except.error "unsupported path syntax"

/-- Modelled from the spec: evaluating one path step against one value.
A missing key, an out-of-range index, or a step applied to a value of the
wrong shape resolves to no matches (never an error). -/
def evalStep (step : PathStep) (v : Json) : List Json :=
  match step, v with
  | PathStep.member n, Json.obj fields =>
    match fields.lookup n with
    | some x => [x]
    | none => []
  | PathStep.member _, _ => []
  | PathStep.index i, Json.arr xs =>
    match xs.get? i with
    | some x => [x]
    | none => []
  | PathStep.index _, _ => []
  | PathStep.wildcard, Json.arr xs => xs
  | PathStep.wildcard, _ => []

/-- Evaluate a parsed path: fold each step over the current match set. -/
def evalSteps (steps : List PathStep) (vs : List Json) : List Json :=
  steps.foldl (fun acc st => acc.flatMap (evalStep st)) vs

/-- Modelled from the spec: the external JSONPath query
(`JSONPath({path, json, wrap: false})`). A path not anchored at `$` or
otherwise malformed is an error (the library raises); an unresolved path
is `Except.ok none` (the library returns `undefined` with `wrap:false`);
several matches collapse into an array value. -/
def jsonPathQuery (path : String) (doc : Json) : Except String (Option Json) :=
  match path.data with
  | '$' :: rest =>
    match parseSteps rest.length rest with
    | Except.error e => Except.error e
    | Except.ok steps =>
      match evalSteps steps [doc] with
      | [] => Except.ok none
      | [v] => Except.ok (some v)
      | vs => Except.ok (some (Json.arr vs))
  | _ => Except.error "path must start at the root"

/-- Extract a value from a resource using JSONPath (`extractValue`): the
source wraps the library call in `try/catch` and returns `undefined` on
any raised error. -/
def extractValue (resource : Json) (path : String) : Option Json :=
  match jsonPathQuery path resource with
  | Except.ok result => result
  | Except.error _ => none

/- ============================================================
   Relationship graph builder (Dashboard component)
   ============================================================ -/

/-- A service record, as read by the Dashboard: `metadata.namespace`,
`metadata.name` and `spec.selector` (absent selector is `none`; a present
selector object, even empty, is truthy in the source). -/
structure ServiceRec where
  ns : String
  name : String
  selector : Option (List (String × String))
deriving DecidableEq

/-- A pod record, as read by the Dashboard: `metadata.namespace`,
`metadata.name` and `metadata.labels` (the source's `|| {}` collapses an
absent label map to the empty map). -/
structure PodRec where
  ns : String
  name : String
  labels : List (String × String)
deriving DecidableEq

/-- One ingress rule, as read by the Dashboard: the optional
`path.backend?.service?.name` of each HTTP path (an absent `http` or
`paths` collapses to no paths). -/
structure IngressRule where
  backends : List (Option String)
deriving DecidableEq

/-- An ingress record, as read by the Dashboard. -/
structure IngressRec where
  ns : String
  name : String
  rules : List IngressRule
deriving DecidableEq

/-- A graph node as assembled by the Dashboard: id, node type
(`default` or `namespace`), parent group id, display label, the
`nodeStyles` key, the position, and for group nodes the computed size. -/
structure GNode where
  id : String
  ntype : String
  parentId : Option String
  label : String
  styleKey : String
  position : Int × Int
  dim : Option (Int × Int)
deriving DecidableEq

/-- A graph edge as assembled by the Dashboard: deterministic id
`"e-{source}-{target}"`, endpoints, and the stroke color that
distinguishes ingress→service edges (`#d946ef`) from service→pod edges
(`#34d399`). -/
structure GEdge where
  id : String
  source : String
  target : String
  stroke : String
deriving DecidableEq

/-- The `"{namespace}-{name}"` join that node ids append to their kind
tag; distinctness of these joins is also the well-formedness condition
under which node ids are collision-free. -/
def joinedKey (ns name : String) : String := ns ++ "-" ++ name

/-- Node id of a service record: `"svc-{namespace}-{name}"`. -/
def svcNodeId (ns name : String) : String := "svc-" ++ ns ++ "-" ++ name

/-- Node id of an ingress record: `"ing-{namespace}-{name}"`. -/
def ingNodeId (ns name : String) : String := "ing-" ++ ns ++ "-" ++ name

/-- Node id of a pod record: `"pod-{namespace}-{name}"`. -/
def podNodeId (ns name : String) : String := "pod-" ++ ns ++ "-" ++ name

/-- Id of the synthetic namespace group node: `"ns-group-{namespace}"`. -/
def nsGroupId (ns : String) : String := "ns-group-" ++ ns

/-- The service node pushed for one service record (position is assigned
later by the layout pass; the source initializes it to the origin). -/
def svcNode (ns : String) (svc : ServiceRec) : GNode :=
  ⟨svcNodeId ns svc.name, "default", some (nsGroupId ns), "SVC: " ++ svc.name,
    "Service", (0, 0), none⟩

/-- The ingress node pushed for one ingress record. -/
def ingNode (ns : String) (ing : IngressRec) : GNode :=
  ⟨ingNodeId ns ing.name, "default", some (nsGroupId ns), "ING: " ++ ing.name,
    "Ingress", (0, 0), none⟩

/-- The pod node pushed for one pod record. -/
def podNode (ns : String) (pod : PodRec) : GNode :=
  ⟨podNodeId ns pod.name, "default", some (nsGroupId ns), "POD: " ++ pod.name,
    "Pod", (0, 0), none⟩

/-- `Map.prototype.set`: update the value in place when the key is
already present (keeping its position), append otherwise. -/
def mapSet (m : List (String × List (String × String))) (k : String)
    (v : List (String × String)) : List (String × List (String × String)) :=
  if m.any (fun p => p.1 = k) then
    m.map (fun p => if p.1 = k then (k, v) else p)
  else m ++ [(k, v)]

/-- The per-namespace `serviceMap`: for each service with a (truthy)
selector, its node id mapped to that selector, in iteration order. -/
def buildServiceMap (ns : String) (svcs : List ServiceRec) :
    List (String × List (String × String)) :=
  svcs.foldl
    (fun m svc =>
      match svc.selector with
      | some sel => mapSet m (svcNodeId ns svc.name) sel
      | none => m)
    []

/-- Selector matching: every selector key must be present in the pod's
labels with an exactly equal value
(`Object.entries(selector).every(([k, v]) => podLabels[k] === v)`). -/
def selectorMatches (sel : List (String × String)) (labels : List (String × String)) : Bool :=
  sel.all (fun kv => labels.lookup kv.1 == some kv.2)

/-- The ingress→service edges pushed for one ingress record: one edge per
HTTP path whose backend service name is truthy, targeting the id the
backend name would have as a service node — without checking that such a
service exists. -/
def ingEdgesFor (ns : String) (ing : IngressRec) : List GEdge :=
  ing.rules.flatMap (fun rule =>
    rule.backends.filterMap (fun b =>
      match b with
      | some svcName =>
        if svcName.isEmpty then none
        else
          some ⟨"e-" ++ ingNodeId ns ing.name ++ "-" ++ svcNodeId ns svcName,
            ingNodeId ns ing.name, svcNodeId ns svcName, "#d946ef"⟩
      | none => none))

/-- The service→pod edges pushed for one pod record: one edge per
registered service whose selector matches the pod's labels, in
`serviceMap` iteration order. -/
def podEdgesFor (ns : String) (smap : List (String × List (String × String)))
    (pod : PodRec) : List GEdge :=
  smap.filterMap (fun entry =>
    if selectorMatches entry.2 pod.labels then
      some ⟨"e-" ++ entry.1 ++ "-" ++ podNodeId ns pod.name,
        entry.1, podNodeId ns pod.name, "#34d399"⟩
    else none)

/-- The services of one namespace bucket, in input order. -/
def nsServices (services : List ServiceRec) (ns : String) : List ServiceRec :=
  services.filter (fun r => r.ns == ns)

/-- The ingresses of one namespace bucket, in input order. -/
def nsIngresses (ingresses : List IngressRec) (ns : String) : List IngressRec :=
  ingresses.filter (fun r => r.ns == ns)

/-- The pods of one namespace bucket, in input order. -/
def nsPods (pods : List PodRec) (ns : String) : List PodRec :=
  pods.filter (fun r => r.ns == ns)

/-- The child nodes pushed for one namespace, in push order: service
nodes, then ingress nodes, then pod nodes. -/
def nsChildNodes (ns : String) (ings : List IngressRec) (svcs : List ServiceRec)
    (pods : List PodRec) : List GNode :=
  svcs.map (svcNode ns) ++ ings.map (ingNode ns) ++ pods.map (podNode ns)

/-- The edges pushed for one namespace, in push order: the ingress→service
edges of each ingress, then the service→pod edges of each pod. -/
def nsEdges (ns : String) (ings : List IngressRec) (svcs : List ServiceRec)
    (pods : List PodRec) : List GEdge :=
  ings.flatMap (ingEdgesFor ns) ++
    pods.flatMap (podEdgesFor ns (buildServiceMap ns svcs))

/-- First-occurrence deduplication with a seen-set accumulator. -/
def dedupFirstAux (seen : List String) : List String → List String
  | [] => []
  | x :: xs =>
    if seen.contains x then dedupFirstAux seen xs
    else x :: dedupFirstAux (seen ++ [x]) xs

/-- First-occurrence deduplication, matching the key order of the
`resourcesByNs` map (a bucket is created at the first record that
mentions its namespace). -/
def dedupFirst (l : List String) : List String :=
  dedupFirstAux [] l

/-- Lexicographic order on character lists, modelling the JavaScript
default array sort on (BMP) strings. -/
def lexLe : List Char → List Char → Bool
  | [], _ => true
  | _ :: _, [] => false
  | a :: as, b :: bs => if a < b then true else if b < a then false else lexLe as bs

/-- Insert a string into a sorted list of strings. -/
def insertSorted (x : String) : List String → List String
  | [] => [x]
  | y :: ys => if lexLe x.data y.data then x :: y :: ys else y :: insertSorted x ys

/-- Sort namespaces alphabetically for stability (`Array.from(keys).sort()`). -/
def sortStrings (l : List String) : List String :=
  l.foldr insertSorted []

/-- The namespace keys of `resourcesByNs` in creation order: ingresses
are bucketed first, then services, then pods. -/
def namespacesOf (ingresses : List IngressRec) (services : List ServiceRec)
    (pods : List PodRec) : List String :=
  dedupFirst (ingresses.map IngressRec.ns ++ services.map ServiceRec.ns ++
    pods.map PodRec.ns)

/-- Modelled from the spec: the rank-assignment half of the layered
(left-to-right) graph-drawing pass. The drawing library used by the
source is external and explicitly an implementation detail; the spec only
promises topological rank layers derived from edge direction. A node's
rank is the longest incoming path, computed with fuel bounded by the node
count. -/
def rankOf (edges : List GEdge) : Nat → String → Nat
  | 0, _ => 0
  | fuel + 1, id =>
    (edges.filterMap (fun e => if e.target == id then some e.source else none)).foldl
      (fun acc p => max acc (rankOf edges fuel p + 1)) 0

/-- Modelled from the spec: placement of the nodes at the centers of
their cells, carrying per-rank row counters — ranks 180 + 60 apart along
x (node width plus `ranksep`), nodes within a rank 60 + 30 apart along y
(node height plus `nodesep`), mirroring the 180×60 cells the source
registers with the library. -/
def dagreRows (edges : List GEdge) (total : Nat) (counts : List (Nat × Nat)) :
    List GNode → List (GNode × Int × Int)
  | [] => []
  | n :: rest =>
    let r := rankOf edges total n.id
    let row := (counts.lookup r).getD 0
    (n, (r : Int) * 240 + 90, (row : Int) * 90 + 30) ::
      dagreRows edges total ((r, row + 1) :: counts) rest

/-- Modelled from the spec: the layered (left-to-right) placement pass of
the external drawing library — rank assignment plus per-rank rows. -/
def dagreLayout (nodes : List GNode) (edges : List GEdge) :
    List (GNode × Int × Int) :=
  dagreRows edges nodes.length [] nodes

/-- Layout helper for namespace content (`layoutNamespaceContent`):
subtract the half-cell offsets, compute the content bounding box, then
shift every node so the box starts at the fixed inset
`(padding, headerHeight + padding)` = `(40, 80)`; returns the shifted
nodes plus the padded box width and height. An empty node list returns
the fixed 200×100 placeholder box. -/
def layoutNamespaceContent (nodes : List GNode) (edges : List GEdge) :
    List GNode × Int × Int :=
  let positioned := (dagreLayout nodes edges).map
    (fun p => (p.1, p.2.1 - 90, p.2.2 - 30))
  if positioned.isEmpty then ([], 200, 100)
  else
    let xs := positioned.map (fun p => p.2.1)
    let ys := positioned.map (fun p => p.2.2)
    let minX := xs.foldl min (xs.headD 0)
    let minY := ys.foldl min (ys.headD 0)
    let maxX := (xs.map (fun x => x + 180)).foldl max (xs.headD 0 + 180)
    let maxY := (ys.map (fun y => y + 60)).foldl max (ys.headD 0 + 60)
    (positioned.map (fun p =>
        { p.1 with position := (p.2.1 - minX + 40, p.2.2 - minY + 40 + 40) }),
      maxX - minX + 80, maxY - minY + 40 + 80)

/-- The namespace group node, sized to the laid-out content box and
placed at the current global y cursor. -/
def nsGroupNode (ns : String) (w h y : Int) : GNode :=
  ⟨nsGroupId ns, "namespace", none, ns, "NamespaceGroup", (0, y), some (w, h)⟩

/-- Process the sorted namespaces in order, carrying the global y cursor:
a namespace whose bucket produced no child nodes is skipped; otherwise
its group node, its laid-out children and its edges are appended and the
cursor advances by the content height plus the inter-namespace padding. -/
def buildNamespaces (ingresses : List IngressRec) (services : List ServiceRec)
    (pods : List PodRec) : List String → Int → List GNode × List GEdge
  | [], _ => ([], [])
  | ns :: rest, y =>
    let ings := nsIngresses ingresses ns
    let svcs := nsServices services ns
    let podL := nsPods pods ns
    let children := nsChildNodes ns ings svcs podL
    let es := nsEdges ns ings svcs podL
    if children.isEmpty then buildNamespaces ingresses services pods rest y
    else
      match layoutNamespaceContent children es with
      | (laid, w, h) =>
        let restResult := buildNamespaces ingresses services pods rest (y + h + 50)
        (nsGroupNode ns w h y :: (laid ++ restResult.1), es ++ restResult.2)

/-- The full relationship-graph computation of the Dashboard effect body:
partition the three collections by namespace, visit namespaces in sorted
order, and build all nodes and edges. -/
def buildGraph (ingresses : List IngressRec) (services : List ServiceRec)
    (pods : List PodRec) : List GNode × List GEdge :=
  buildNamespaces ingresses services pods
    (sortStrings (namespacesOf ingresses services pods)) 0

/-- One run of the Dashboard effect's state update
(`setNodes((prev) => [...prev, ...allNodes])`,
`setEdges((prev) => [...prev, ...allEdges])`): the rebuilt graph is
appended onto the previous node/edge state. -/
def dashboardEffect (prev : List GNode × List GEdge) (ingresses : List IngressRec)
    (services : List ServiceRec) (pods : List PodRec) : List GNode × List GEdge :=
  match buildGraph ingresses services pods with
  | (allNodes, allEdges) => (prev.1 ++ allNodes, prev.2 ++ allEdges)

/- ============================================================
   Helper lemmas: strings and node ids
   ============================================================ -/

theorem eq_of_data_eq {a b : String} (h : a.data = b.data) : a = b := by
  cases a
  cases b
  exact congrArg String.mk h

theorem joinedKey_data (ns name : String) :
    (joinedKey ns name).data = ns.data ++ '-' :: name.data := by
  simp [joinedKey, String.data_append]

theorem svcNodeId_data (ns name : String) :
    (svcNodeId ns name).data = 's' :: 'v' :: 'c' :: '-' :: (ns.data ++ '-' :: name.data) := by
  simp [svcNodeId, String.data_append]

theorem ingNodeId_data (ns name : String) :
    (ingNodeId ns name).data = 'i' :: 'n' :: 'g' :: '-' :: (ns.data ++ '-' :: name.data) := by
  simp [ingNodeId, String.data_append]

theorem podNodeId_data (ns name : String) :
    (podNodeId ns name).data = 'p' :: 'o' :: 'd' :: '-' :: (ns.data ++ '-' :: name.data) := by
  simp [podNodeId, String.data_append]

theorem nsGroupId_data (ns : String) :
    (nsGroupId ns).data =
      'n' :: 's' :: '-' :: 'g' :: 'r' :: 'o' :: 'u' :: 'p' :: '-' :: ns.data := by
  simp [nsGroupId, String.data_append]

theorem svcNodeId_inj {a b c d : String} (h : svcNodeId a b = svcNodeId c d) :
    joinedKey a b = joinedKey c d := by
  apply eq_of_data_eq
  have h2 := congrArg String.data h
  rw [svcNodeId_data, svcNodeId_data] at h2
  rw [joinedKey_data, joinedKey_data]
  simpa using h2

theorem ingNodeId_inj {a b c d : String} (h : ingNodeId a b = ingNodeId c d) :
    joinedKey a b = joinedKey c d := by
  apply eq_of_data_eq
  have h2 := congrArg String.data h
  rw [ingNodeId_data, ingNodeId_data] at h2
  rw [joinedKey_data, joinedKey_data]
  simpa using h2

theorem podNodeId_inj {a b c d : String} (h : podNodeId a b = podNodeId c d) :
    joinedKey a b = joinedKey c d := by
  apply eq_of_data_eq
  have h2 := congrArg String.data h
  rw [podNodeId_data, podNodeId_data] at h2
  rw [joinedKey_data, joinedKey_data]
  simpa using h2

theorem nsGroupId_inj {a b : String} (h : nsGroupId a = nsGroupId b) : a = b := by
  apply eq_of_data_eq
  have h2 := congrArg String.data h
  rw [nsGroupId_data, nsGroupId_data] at h2
  simpa using h2

theorem svcNodeId_ne_ingNodeId (a b c d : String) : svcNodeId a b ≠ ingNodeId c d := by
  intro h
  have h2 := congrArg String.data h
  rw [svcNodeId_data, ingNodeId_data] at h2
  simp at h2

theorem svcNodeId_ne_podNodeId (a b c d : String) : svcNodeId a b ≠ podNodeId c d := by
  intro h
  have h2 := congrArg String.data h
  rw [svcNodeId_data, podNodeId_data] at h2
  simp at h2

theorem ingNodeId_ne_podNodeId (a b c d : String) : ingNodeId a b ≠ podNodeId c d := by
  intro h
  have h2 := congrArg String.data h
  rw [ingNodeId_data, podNodeId_data] at h2
  simp at h2

theorem nsGroupId_ne_svcNodeId (a c d : String) : nsGroupId a ≠ svcNodeId c d := by
  intro h
  have h2 := congrArg String.data h
  rw [nsGroupId_data, svcNodeId_data] at h2
  simp at h2

theorem nsGroupId_ne_ingNodeId (a c d : String) : nsGroupId a ≠ ingNodeId c d := by
  intro h
  have h2 := congrArg String.data h
  rw [nsGroupId_data, ingNodeId_data] at h2
  simp at h2

theorem nsGroupId_ne_podNodeId (a c d : String) : nsGroupId a ≠ podNodeId c d := by
  intro h
  have h2 := congrArg String.data h
  rw [nsGroupId_data, podNodeId_data] at h2
  simp at h2

/- ============================================================
   Helper lemmas: lists, counting, sorting, dedup
   ============================================================ -/

theorem countP_flatMap_sum {α β : Type} (l : List α) (f : α → List β) (q : β → Bool) :
    ((l.flatMap f).countP q) = (l.map (fun a => (f a).countP q)).sum := by
  induction l with
  | nil => rfl
  | cons x xs ih => simp [List.flatMap_cons, List.countP_append, ih]

theorem countP_filterMap_eq {α β : Type} (l : List α) (g : α → Option β) (q : β → Bool) :
    ((l.filterMap g).countP q) =
      l.countP (fun a =>
        match g a with
        | some b => q b
        | none => false) := by
  induction l with
  | nil => rfl
  | cons x xs ih =>
    cases hg : g x <;>
      simp [List.filterMap_cons, hg, List.countP_cons, ih]

theorem sum_eq_single {α : Type} (l : List α) (g : α → Nat) (x : α) (hn : l.Nodup)
    (hx : x ∈ l) (hz : ∀ a ∈ l, a ≠ x → g a = 0) : (l.map g).sum = g x := by
  induction l with
  | nil => cases hx
  | cons a rest ih =>
    have hna := (List.nodup_cons.mp hn).1
    have hnr := (List.nodup_cons.mp hn).2
    rcases List.mem_cons.mp hx with rfl | hx2
    · have hrest : ∀ b ∈ rest, g b = 0 := fun b hb =>
        hz b (List.mem_cons_of_mem _ hb) (fun e => hna (e ▸ hb))
      have : (rest.map g).sum = 0 := List.sum_eq_zero (by
        intro m hm
        rcases List.mem_map.mp hm with ⟨b, hb, rfl⟩
        exact hrest b hb)
      simp [this]
    · have hax : a ≠ x := fun e => hna (e ▸ hx2)
      have ha : g a = 0 := hz a (List.mem_cons_self _ _) hax
      have := ih hnr hx2 (fun b hb hbx => hz b (List.mem_cons_of_mem _ hb) hbx)
      simp [ha, this]

theorem countP_eq_one_single {α : Type} (l : List α) (g : α → Bool) (x : α)
    (hn : l.Nodup) (hx : x ∈ l) (hgx : g x = true)
    (ho : ∀ a ∈ l, g a = true → a = x) : l.countP g = 1 := by
  induction l with
  | nil => cases hx
  | cons a rest ih =>
    have hna := (List.nodup_cons.mp hn).1
    have hnr := (List.nodup_cons.mp hn).2
    rcases List.mem_cons.mp hx with rfl | hx2
    · have hrest : rest.countP g = 0 := List.countP_eq_zero.mpr (by
        intro b hb hgb
        exact hna ((ho b (List.mem_cons_of_mem _ hb) hgb) ▸ hb))
      simp [List.countP_cons, hgx, hrest]
    · have hax : a ≠ x := fun e => hna (e ▸ hx2)
      have hga : g a = false := by
        cases hg : g a with
        | false => rfl
        | true => exact absurd (ho a (List.mem_cons_self _ _) hg) hax
      have := ih hnr hx2 (fun b hb hgb => ho b (List.mem_cons_of_mem _ hb) hgb)
      simp [List.countP_cons, hga, this]

theorem flatMap_congr_mem {α β : Type} {l : List α} {f g : α → List β}
    (h : ∀ a ∈ l, f a = g a) : l.flatMap f = l.flatMap g := by
  induction l with
  | nil => rfl
  | cons x xs ih =>
    simp only [List.flatMap_cons]
    rw [h x (List.mem_cons_self _ _), ih (fun a ha => h a (List.mem_cons_of_mem _ ha))]

theorem insertSorted_perm (x : String) (l : List String) :
    (insertSorted x l).Perm (x :: l) := by
  induction l with
  | nil => exact List.Perm.refl _
  | cons y ys ih =>
    by_cases h : lexLe x.data y.data
    · simp [insertSorted, h]
    · simp only [insertSorted, h, if_false]
      exact (List.Perm.cons y ih).trans (List.Perm.swap x y ys)

theorem sortStrings_perm (l : List String) : (sortStrings l).Perm l := by
  induction l with
  | nil => exact List.Perm.refl _
  | cons x xs ih =>
    exact (insertSorted_perm x (sortStrings xs)).trans (List.Perm.cons x ih)

theorem mem_sortStrings {a : String} {l : List String} :
    a ∈ sortStrings l ↔ a ∈ l :=
  (sortStrings_perm l).mem_iff

theorem sortStrings_nodup {l : List String} (h : l.Nodup) : (sortStrings l).Nodup :=
  ((sortStrings_perm l).nodup_iff).mpr h

theorem mem_dedupFirstAux {a : String} :
    ∀ (l seen : List String), a ∈ dedupFirstAux seen l ↔ a ∈ l ∧ a ∉ seen := by
  intro l
  induction l with
  | nil => intro seen; simp [dedupFirstAux]
  | cons x xs ih =>
    intro seen
    cases hx : seen.contains x with
    | true =>
      have hxs : x ∈ seen := by
        have := hx
        rwa [List.elem_iff] at this
      simp only [dedupFirstAux]
      rw [hx, if_pos rfl, ih]
      constructor
      · exact fun ⟨h1, h2⟩ => ⟨List.mem_cons_of_mem _ h1, h2⟩
      · rintro ⟨h1, h2⟩
        rcases List.mem_cons.mp h1 with rfl | h3
        · exact absurd hxs h2
        · exact ⟨h3, h2⟩
    | false =>
      have hxs : x ∉ seen := by
        intro hm
        have : seen.contains x = true := by
          rw [List.elem_iff]
          exact hm
        rw [hx] at this
        cases this
      simp only [dedupFirstAux]
      rw [hx, if_neg (by simp), List.mem_cons, ih]
      constructor
      · rintro (rfl | ⟨h1, h2⟩)
        · exact ⟨List.mem_cons_self _ _, hxs⟩
        · refine ⟨List.mem_cons_of_mem _ h1, fun hm => h2 ?_⟩
          simp [hm]
      · rintro ⟨h1, h2⟩
        rcases List.mem_cons.mp h1 with rfl | h3
        · exact Or.inl rfl
        · by_cases hax : a = x
          · exact Or.inl hax
          · refine Or.inr ⟨h3, fun hm => ?_⟩
            rcases List.mem_append.mp hm with hm1 | hm2
            · exact h2 hm1
            · exact hax (by simpa using hm2)

theorem nodup_dedupFirstAux :
    ∀ (l seen : List String), (dedupFirstAux seen l).Nodup := by
  intro l
  induction l with
  | nil => intro seen; simp [dedupFirstAux]
  | cons x xs ih =>
    intro seen
    cases hx : seen.contains x with
    | true =>
      simp only [dedupFirstAux]
      rw [hx, if_pos rfl]
      exact ih seen
    | false =>
      simp only [dedupFirstAux]
      rw [hx, if_neg (by simp)]
      refine List.nodup_cons.mpr ⟨fun hm => ?_, ih _⟩
      have := (mem_dedupFirstAux xs (seen ++ [x])).mp hm
      exact this.2 (by simp)

theorem mem_namespacesOf {a : String} {i : List IngressRec} {s : List ServiceRec}
    {p : List PodRec} :
    a ∈ namespacesOf i s p ↔
      a ∈ i.map IngressRec.ns ∨ a ∈ s.map ServiceRec.ns ∨ a ∈ p.map PodRec.ns := by
  rw [namespacesOf, dedupFirst, mem_dedupFirstAux]
  simp [or_assoc]

theorem nodup_namespacesOf {i : List IngressRec} {s : List ServiceRec} {p : List PodRec} :
    (namespacesOf i s p).Nodup :=
  nodup_dedupFirstAux _ _

/- ============================================================
   Helper lemmas: layout and builder characterizations
   ============================================================ -/

theorem dagreRows_map_fst (edges : List GEdge) (total : Nat) :
    ∀ (l : List GNode) (counts : List (Nat × Nat)),
      (dagreRows edges total counts l).map (fun p => p.1) = l := by
  intro l
  induction l with
  | nil => intro counts; rfl
  | cons n rest ih => intro counts; simp [dagreRows, ih]

theorem layout_ids (nodes : List GNode) (edges : List GEdge) :
    ((layoutNamespaceContent nodes edges).1).map GNode.id = nodes.map GNode.id := by
  have hfst : ((dagreRows edges nodes.length [] nodes).map (fun p => p.1)).map GNode.id
      = nodes.map GNode.id := by rw [dagreRows_map_fst]
  rw [List.map_map] at hfst
  simp only [layoutNamespaceContent, dagreLayout]
  split
  · rename_i hemp
    rw [List.isEmpty_iff, List.map_eq_nil_iff] at hemp
    have hn : nodes = [] := by
      have h2 := congrArg (List.map (fun p => (p.1 : GNode))) hemp
      rw [dagreRows_map_fst] at h2
      simpa using h2
    simp [hn]
  · simp only [List.map_map]
    exact hfst

theorem buildNamespaces_ids (i : List IngressRec) (s : List ServiceRec) (p : List PodRec) :
    ∀ (l : List String) (y : Int),
      ((buildNamespaces i s p l y).1).map GNode.id =
        l.flatMap (fun ns =>
          if (nsChildNodes ns (nsIngresses i ns) (nsServices s ns) (nsPods p ns)).isEmpty
          then []
          else nsGroupId ns ::
            (nsChildNodes ns (nsIngresses i ns) (nsServices s ns) (nsPods p ns)).map
              GNode.id) := by
  intro l
  induction l with
  | nil => intro y; rfl
  | cons ns rest ih =>
    intro y
    simp only [buildNamespaces, List.flatMap_cons]
    by_cases h : (nsChildNodes ns (nsIngresses i ns) (nsServices s ns) (nsPods p ns)).isEmpty
    · simp only [h, if_true, ih, List.nil_append]
    · simp only [h, if_false]
      rcases hL : layoutNamespaceContent
          (nsChildNodes ns (nsIngresses i ns) (nsServices s ns) (nsPods p ns))
          (nsEdges ns (nsIngresses i ns) (nsServices s ns) (nsPods p ns)) with ⟨laid, w, hh⟩
      have hlaid : laid.map GNode.id =
          (nsChildNodes ns (nsIngresses i ns) (nsServices s ns) (nsPods p ns)).map
            GNode.id := by
        have h2 := layout_ids
          (nsChildNodes ns (nsIngresses i ns) (nsServices s ns) (nsPods p ns))
          (nsEdges ns (nsIngresses i ns) (nsServices s ns) (nsPods p ns))
        rw [hL] at h2
        exact h2
      simp only [hL, Bool.false_eq_true, if_false, List.map_cons, List.map_append, ih,
        hlaid, nsGroupNode, List.cons_append]

theorem buildNamespaces_edges (i : List IngressRec) (s : List ServiceRec) (p : List PodRec) :
    ∀ (l : List String) (y : Int),
      (buildNamespaces i s p l y).2 =
        l.flatMap (fun ns =>
          if (nsChildNodes ns (nsIngresses i ns) (nsServices s ns) (nsPods p ns)).isEmpty
          then []
          else nsEdges ns (nsIngresses i ns) (nsServices s ns) (nsPods p ns)) := by
  intro l
  induction l with
  | nil => intro y; rfl
  | cons ns rest ih =>
    intro y
    simp only [buildNamespaces, List.flatMap_cons]
    by_cases h : (nsChildNodes ns (nsIngresses i ns) (nsServices s ns) (nsPods p ns)).isEmpty
    · simp only [h, if_true, ih, List.nil_append]
    · simp only [h, if_false]
      rcases hL : layoutNamespaceContent
          (nsChildNodes ns (nsIngresses i ns) (nsServices s ns) (nsPods p ns))
          (nsEdges ns (nsIngresses i ns) (nsServices s ns) (nsPods p ns)) with ⟨laid, w, hh⟩
      simp only [hL, Bool.false_eq_true, if_false, ih]

theorem children_ne_nil {i : List IngressRec} {s : List ServiceRec} {p : List PodRec}
    {ns : String} (h : ns ∈ namespacesOf i s p) :
    (nsChildNodes ns (nsIngresses i ns) (nsServices s ns) (nsPods p ns)).isEmpty = false := by
  have hmem : ∃ n, n ∈ nsChildNodes ns (nsIngresses i ns) (nsServices s ns) (nsPods p ns) := by
    rcases mem_namespacesOf.mp h with h1 | h1 | h1
    · rcases List.mem_map.mp h1 with ⟨r, hr, hns⟩
      refine ⟨ingNode ns r, ?_⟩
      unfold nsChildNodes
      refine List.mem_append_left _ (List.mem_append_right _ ?_)
      exact List.mem_map_of_mem _ (List.mem_filter.mpr ⟨hr, by simp [hns]⟩)
    · rcases List.mem_map.mp h1 with ⟨r, hr, hns⟩
      refine ⟨svcNode ns r, ?_⟩
      unfold nsChildNodes
      refine List.mem_append_left _ (List.mem_append_left _ ?_)
      exact List.mem_map_of_mem _ (List.mem_filter.mpr ⟨hr, by simp [hns]⟩)
    · rcases List.mem_map.mp h1 with ⟨r, hr, hns⟩
      refine ⟨podNode ns r, ?_⟩
      unfold nsChildNodes
      refine List.mem_append_right _ ?_
      exact List.mem_map_of_mem _ (List.mem_filter.mpr ⟨hr, by simp [hns]⟩)
  rcases hmem with ⟨n, hn⟩
  cases hc : (nsChildNodes ns (nsIngresses i ns) (nsServices s ns) (nsPods p ns)).isEmpty with
  | false => rfl
  | true =>
    rw [List.isEmpty_iff] at hc
    rw [hc] at hn
    cases hn

theorem buildGraph_ids (i : List IngressRec) (s : List ServiceRec) (p : List PodRec) :
    (buildGraph i s p).1.map GNode.id =
      (sortStrings (namespacesOf i s p)).flatMap (fun ns =>
        nsGroupId ns ::
          (nsChildNodes ns (nsIngresses i ns) (nsServices s ns) (nsPods p ns)).map
            GNode.id) := by
  rw [buildGraph, buildNamespaces_ids]
  apply flatMap_congr_mem
  intro ns hns
  rw [children_ne_nil (mem_sortStrings.mp hns)]
  simp

theorem buildGraph_edges (i : List IngressRec) (s : List ServiceRec) (p : List PodRec) :
    (buildGraph i s p).2 =
      (sortStrings (namespacesOf i s p)).flatMap (fun ns =>
        nsEdges ns (nsIngresses i ns) (nsServices s ns) (nsPods p ns)) := by
  rw [buildGraph, buildNamespaces_edges]
  apply flatMap_congr_mem
  intro ns hns
  rw [children_ne_nil (mem_sortStrings.mp hns)]
  simp

theorem mem_mapSet {m : List (String × List (String × String))} {k : String}
    {v : List (String × String)} {e : String × List (String × String)}
    (he : e ∈ mapSet m k v) : e ∈ m ∨ e = (k, v) := by
  unfold mapSet at he
  split at he
  · rcases List.mem_map.mp he with ⟨q, hq, heq⟩
    by_cases hk : q.1 = k
    · rw [if_pos hk] at heq
      exact Or.inr heq.symm
    · rw [if_neg hk] at heq
      exact Or.inl (heq ▸ hq)
  · rcases List.mem_append.mp he with h1 | h1
    · exact Or.inl h1
    · simp at h1
      exact Or.inr h1

theorem mapSet_fresh {m : List (String × List (String × String))} {k : String}
    {v : List (String × String)} (h : ∀ e ∈ m, e.1 ≠ k) :
    mapSet m k v = m ++ [(k, v)] := by
  unfold mapSet
  split
  · rename_i hc
    rcases List.any_eq_true.mp hc with ⟨q, hq, hqk⟩
    exact absurd (of_decide_eq_true hqk) (h q hq)
  · rfl

theorem foldl_serviceMap_eq (ns : String) :
    ∀ (svcs : List ServiceRec) (acc : List (String × List (String × String))),
      (svcs.map (fun r => svcNodeId ns r.name)).Nodup →
      (∀ e ∈ acc, ∀ r ∈ svcs, e.1 ≠ svcNodeId ns r.name) →
      svcs.foldl
        (fun m svc =>
          match svc.selector with
          | some sel => mapSet m (svcNodeId ns svc.name) sel
          | none => m) acc =
      acc ++ svcs.filterMap (fun r =>
        r.selector.map (fun sel => (svcNodeId ns r.name, sel))) := by
  intro svcs
  induction svcs with
  | nil => intro acc _ _; simp
  | cons svc rest ih =>
    intro acc hnodup hacc
    rw [List.map_cons] at hnodup
    have hn1 := (List.nodup_cons.mp hnodup).1
    have hn2 := (List.nodup_cons.mp hnodup).2
    cases hsel : svc.selector with
    | none =>
      simp only [List.foldl_cons, hsel, List.filterMap_cons, Option.map_none]
      exact ih acc hn2 (fun e he r hr => hacc e he r (List.mem_cons_of_mem _ hr))
    | some sel =>
      simp only [List.foldl_cons, hsel, List.filterMap_cons, Option.map_some]
      have hfresh : mapSet acc (svcNodeId ns svc.name) sel =
          acc ++ [(svcNodeId ns svc.name, sel)] :=
        mapSet_fresh (fun e he => hacc e he svc (List.mem_cons_self _ _))
      rw [hfresh, ih (acc ++ [(svcNodeId ns svc.name, sel)]) hn2 ?_, List.append_assoc]
      · simp
      · intro e he r hr
        rcases List.mem_append.mp he with h1 | h1
        · exact hacc e h1 r (List.mem_cons_of_mem _ hr)
        · simp only [List.mem_singleton] at h1
          rw [h1]
          intro hcontra
          have hm2 : svcNodeId ns r.name ∈ rest.map (fun r => svcNodeId ns r.name) :=
            List.mem_map_of_mem _ hr
          rw [← hcontra] at hm2
          exact hn1 hm2

theorem buildServiceMap_eq (ns : String) (svcs : List ServiceRec)
    (h : (svcs.map (fun r => svcNodeId ns r.name)).Nodup) :
    buildServiceMap ns svcs =
      svcs.filterMap (fun r =>
        r.selector.map (fun sel => (svcNodeId ns r.name, sel))) := by
  have h2 := foldl_serviceMap_eq ns svcs [] h (by simp)
  simpa [buildServiceMap] using h2

theorem mem_buildServiceMap {ns : String} :
    ∀ (svcs : List ServiceRec) (acc : List (String × List (String × String)))
      (e : String × List (String × String)),
      e ∈ svcs.foldl
        (fun m svc =>
          match svc.selector with
          | some sel => mapSet m (svcNodeId ns svc.name) sel
          | none => m) acc →
      e ∈ acc ∨ ∃ r ∈ svcs, e.1 = svcNodeId ns r.name ∧ r.selector = some e.2 := by
  intro svcs
  induction svcs with
  | nil => intro acc e he; exact Or.inl he
  | cons svc rest ih =>
    intro acc e he
    simp only [List.foldl_cons] at he
    cases hsel : svc.selector with
    | none =>
      rw [hsel] at he
      rcases ih acc e he with h1 | ⟨r, hr, h2⟩
      · exact Or.inl h1
      · exact Or.inr ⟨r, List.mem_cons_of_mem _ hr, h2⟩
    | some sel =>
      rw [hsel] at he
      rcases ih (mapSet acc (svcNodeId ns svc.name) sel) e he with h1 | ⟨r, hr, h2⟩
      · rcases mem_mapSet h1 with h2 | h2
        · exact Or.inl h2
        · refine Or.inr ⟨svc, List.mem_cons_self _ _, ?_, ?_⟩
          · rw [h2]
          · rw [h2, hsel]
      · exact Or.inr ⟨r, List.mem_cons_of_mem _ hr, h2⟩

theorem mem_ingEdgesFor {ns : String} {ing : IngressRec} {e : GEdge}
    (he : e ∈ ingEdgesFor ns ing) :
    e.source = ingNodeId ns ing.name ∧ e.stroke = "#d946ef" ∧
    ∃ svcName, svcName.isEmpty = false ∧ e.target = svcNodeId ns svcName := by
  unfold ingEdgesFor at he
  rcases List.mem_flatMap.mp he with ⟨rule, _, he2⟩
  rcases List.mem_filterMap.mp he2 with ⟨b, _, hbe⟩
  cases b with
  | none => simp at hbe
  | some svcName =>
    cases hemp : svcName.isEmpty with
    | true => simp [hemp] at hbe
    | false =>
      simp only [hemp, Bool.false_eq_true, if_false, Option.some.injEq] at hbe
      rw [← hbe]
      exact ⟨rfl, rfl, svcName, hemp, rfl⟩

theorem mem_podEdgesFor {ns : String} {smap : List (String × List (String × String))}
    {pod : PodRec} {e : GEdge} (he : e ∈ podEdgesFor ns smap pod) :
    e.target = podNodeId ns pod.name ∧ e.stroke = "#34d399" ∧
    ∃ entry ∈ smap, e.source = entry.1 ∧ selectorMatches entry.2 pod.labels = true := by
  unfold podEdgesFor at he
  rcases List.mem_filterMap.mp he with ⟨entry, hentry, hee⟩
  cases hm : selectorMatches entry.2 pod.labels with
  | false => simp [hm] at hee
  | true =>
    simp only [hm, if_true, Option.some.injEq] at hee
    rw [← hee]
    exact ⟨rfl, rfl, entry, hentry, rfl, hm⟩

theorem mem_childIds_svc {ns : String} {ings : List IngressRec} {svcs : List ServiceRec}
    {pods : List PodRec} {r : ServiceRec} (hr : r ∈ svcs) :
    svcNodeId ns r.name ∈ (nsChildNodes ns ings svcs pods).map GNode.id := by
  unfold nsChildNodes
  rw [List.map_append, List.map_append]
  refine List.mem_append_left _ (List.mem_append_left _ ?_)
  rw [List.map_map]
  exact List.mem_map.mpr ⟨r, hr, rfl⟩

theorem mem_childIds_ing {ns : String} {ings : List IngressRec} {svcs : List ServiceRec}
    {pods : List PodRec} {r : IngressRec} (hr : r ∈ ings) :
    ingNodeId ns r.name ∈ (nsChildNodes ns ings svcs pods).map GNode.id := by
  unfold nsChildNodes
  rw [List.map_append, List.map_append]
  refine List.mem_append_left _ (List.mem_append_right _ ?_)
  rw [List.map_map]
  exact List.mem_map.mpr ⟨r, hr, rfl⟩

theorem mem_childIds_pod {ns : String} {ings : List IngressRec} {svcs : List ServiceRec}
    {pods : List PodRec} {r : PodRec} (hr : r ∈ pods) :
    podNodeId ns r.name ∈ (nsChildNodes ns ings svcs pods).map GNode.id := by
  unfold nsChildNodes
  rw [List.map_append, List.map_append]
  refine List.mem_append_right _ ?_
  rw [List.map_map]
  exact List.mem_map.mpr ⟨r, hr, rfl⟩

theorem bucket_tagged_nodup {α : Type} [DecidableEq α] (l : List α) (rns rname : α → String)
    (tagId : String → String → String)
    (tagInj : ∀ a b c d, tagId a b = tagId c d → joinedKey a b = joinedKey c d)
    (H : (l.map (fun r => joinedKey (rns r) (rname r))).Nodup) (ns : String)
    (fl : List α) (hfl : fl = l.filter (fun r => rns r == ns)) :
    (fl.map (fun r => tagId ns (rname r))).Nodup := by
  subst hfl
  have hl : l.Nodup := List.Nodup.of_map _ H
  refine List.Nodup.map_on ?_ (hl.filter _)
  intro x hx y hy hxy
  have hxns : rns x = ns := by simpa using (List.mem_filter.mp hx).2
  have hyns : rns y = ns := by simpa using (List.mem_filter.mp hy).2
  have hkey : joinedKey (rns x) (rname x) = joinedKey (rns y) (rname y) := by
    rw [hxns, hyns]
    exact tagInj _ _ _ _ hxy
  exact List.inj_on_of_nodup_map H (List.mem_filter.mp hx).1 (List.mem_filter.mp hy).1 hkey

theorem mem_childIds_iff {i : List IngressRec} {s : List ServiceRec} {p : List PodRec}
    {ns x : String} :
    x ∈ (nsChildNodes ns (nsIngresses i ns) (nsServices s ns) (nsPods p ns)).map GNode.id ↔
      (∃ r ∈ s, r.ns = ns ∧ x = svcNodeId ns r.name) ∨
      (∃ r ∈ i, r.ns = ns ∧ x = ingNodeId ns r.name) ∨
      (∃ r ∈ p, r.ns = ns ∧ x = podNodeId ns r.name) := by
  simp only [nsChildNodes, nsServices, nsIngresses, nsPods, List.map_append,
    List.map_map, Function.comp, List.mem_append, List.mem_map, List.mem_filter,
    svcNode, ingNode, podNode, beq_iff_eq]
  constructor
  · rintro ((⟨r, ⟨hr, hrns⟩, rfl⟩ | ⟨r, ⟨hr, hrns⟩, rfl⟩) | ⟨r, ⟨hr, hrns⟩, rfl⟩)
    · exact Or.inl ⟨r, hr, hrns, rfl⟩
    · exact Or.inr (Or.inl ⟨r, hr, hrns, rfl⟩)
    · exact Or.inr (Or.inr ⟨r, hr, hrns, rfl⟩)
  · rintro (⟨r, hr, hrns, rfl⟩ | ⟨r, hr, hrns, rfl⟩ | ⟨r, hr, hrns, rfl⟩)
    · exact Or.inl (Or.inl ⟨r, ⟨hr, hrns⟩, rfl⟩)
    · exact Or.inl (Or.inr ⟨r, ⟨hr, hrns⟩, rfl⟩)
    · exact Or.inr ⟨r, ⟨hr, hrns⟩, rfl⟩

theorem perNs_nodup (i : List IngressRec) (s : List ServiceRec) (p : List PodRec)
    (HS : (s.map (fun r => joinedKey r.ns r.name)).Nodup)
    (HI : (i.map (fun r => joinedKey r.ns r.name)).Nodup)
    (HP : (p.map (fun r => joinedKey r.ns r.name)).Nodup)
    (ns : String) :
    (nsGroupId ns ::
      (nsChildNodes ns (nsIngresses i ns) (nsServices s ns) (nsPods p ns)).map
        GNode.id).Nodup := by
  have hsvc := bucket_tagged_nodup s ServiceRec.ns ServiceRec.name svcNodeId
    (fun a b c d h => svcNodeId_inj h) HS ns (nsServices s ns) rfl
  have hing := bucket_tagged_nodup i IngressRec.ns IngressRec.name ingNodeId
    (fun a b c d h => ingNodeId_inj h) HI ns (nsIngresses i ns) rfl
  have hpod := bucket_tagged_nodup p PodRec.ns PodRec.name podNodeId
    (fun a b c d h => podNodeId_inj h) HP ns (nsPods p ns) rfl
  refine List.nodup_cons.mpr ⟨?_, ?_⟩
  · intro hmem
    rcases mem_childIds_iff.mp hmem with ⟨r, _, _, heq⟩ | ⟨r, _, _, heq⟩ | ⟨r, _, _, heq⟩
    · exact nsGroupId_ne_svcNodeId ns ns r.name heq
    · exact nsGroupId_ne_ingNodeId ns ns r.name heq
    · exact nsGroupId_ne_podNodeId ns ns r.name heq
  · unfold nsChildNodes
    rw [List.map_append, List.map_append, List.map_map, List.map_map, List.map_map]
    refine List.nodup_append.mpr ⟨List.nodup_append.mpr ⟨hsvc, hing, ?_⟩, hpod, ?_⟩
    · intro x hxa hxb
      rcases List.mem_map.mp hxa with ⟨a, _, rfl⟩
      rcases List.mem_map.mp hxb with ⟨b, _, heq⟩
      exact svcNodeId_ne_ingNodeId ns a.name ns b.name heq.symm
    · intro x hxa hxb
      rcases List.mem_map.mp hxb with ⟨b, _, heq⟩
      rcases List.mem_append.mp hxa with hxs | hxi
      · rcases List.mem_map.mp hxs with ⟨a, _, rfl⟩
        exact svcNodeId_ne_podNodeId ns a.name ns b.name heq.symm
      · rcases List.mem_map.mp hxi with ⟨a, _, rfl⟩
        exact ingNodeId_ne_podNodeId ns a.name ns b.name heq.symm

theorem perNs_disjoint (i : List IngressRec) (s : List ServiceRec) (p : List PodRec)
    (HS : (s.map (fun r => joinedKey r.ns r.name)).Nodup)
    (HI : (i.map (fun r => joinedKey r.ns r.name)).Nodup)
    (HP : (p.map (fun r => joinedKey r.ns r.name)).Nodup)
    {ns1 ns2 : String} (hne : ns1 ≠ ns2) :
    List.Disjoint
      (nsGroupId ns1 ::
        (nsChildNodes ns1 (nsIngresses i ns1) (nsServices s ns1) (nsPods p ns1)).map
          GNode.id)
      (nsGroupId ns2 ::
        (nsChildNodes ns2 (nsIngresses i ns2) (nsServices s ns2) (nsPods p ns2)).map
          GNode.id) := by
  intro x hx1 hx2
  rcases List.mem_cons.mp hx1 with rfl | hx1c
  · rcases List.mem_cons.mp hx2 with heq | hx2c
    · exact hne (nsGroupId_inj heq)
    · rcases mem_childIds_iff.mp hx2c with ⟨r, _, _, heq⟩ | ⟨r, _, _, heq⟩ | ⟨r, _, _, heq⟩
      · exact nsGroupId_ne_svcNodeId ns1 ns2 r.name heq
      · exact nsGroupId_ne_ingNodeId ns1 ns2 r.name heq
      · exact nsGroupId_ne_podNodeId ns1 ns2 r.name heq
  · rcases List.mem_cons.mp hx2 with heq | hx2c
    · subst heq
      rcases mem_childIds_iff.mp hx1c with ⟨r, _, _, heq⟩ | ⟨r, _, _, heq⟩ | ⟨r, _, _, heq⟩
      · exact nsGroupId_ne_svcNodeId ns2 ns1 r.name heq
      · exact nsGroupId_ne_ingNodeId ns2 ns1 r.name heq
      · exact nsGroupId_ne_podNodeId ns2 ns1 r.name heq
    · rcases mem_childIds_iff.mp hx1c with ⟨a, ha, hans, rfl⟩ | ⟨a, ha, hans, rfl⟩ |
        ⟨a, ha, hans, rfl⟩ <;>
        rcases mem_childIds_iff.mp hx2c with ⟨b, hb, hbns, heq⟩ | ⟨b, hb, hbns, heq⟩ |
          ⟨b, hb, hbns, heq⟩
      · have hk := svcNodeId_inj heq
        rw [← hans, ← hbns] at hk
        have hab := List.inj_on_of_nodup_map HS ha hb hk
        exact hne (by rw [← hans, ← hbns, hab])
      · exact svcNodeId_ne_ingNodeId ns1 a.name ns2 b.name heq
      · exact svcNodeId_ne_podNodeId ns1 a.name ns2 b.name heq
      · exact svcNodeId_ne_ingNodeId ns2 b.name ns1 a.name heq.symm
      · have hk := ingNodeId_inj heq
        rw [← hans, ← hbns] at hk
        have hab := List.inj_on_of_nodup_map HI ha hb hk
        exact hne (by rw [← hans, ← hbns, hab])
      · exact ingNodeId_ne_podNodeId ns1 a.name ns2 b.name heq
      · exact svcNodeId_ne_podNodeId ns2 b.name ns1 a.name heq.symm
      · exact ingNodeId_ne_podNodeId ns2 b.name ns1 a.name heq.symm
      · have hk := podNodeId_inj heq
        rw [← hans, ← hbns] at hk
        have hab := List.inj_on_of_nodup_map HP ha hb hk
        exact hne (by rw [← hans, ← hbns, hab])

/- ============================================================
   Theorems
   ============================================================ -/

/-- C1: the claim says a second run of the graph builder replaces the
first run's node/edge state, with no stale entries surviving. The spec is
the clear intent (full, idempotent recomputation), but the effect's state
update appends the rebuilt graph onto the previous state: running the
effect twice over the same single-pod snapshot leaves every node twice,
so the first run's entries survive and the ids are duplicated. -/
theorem C1_second_run_appends_instead_of_replacing :
    (dashboardEffect ([], []) [] [] [⟨"a", "p", []⟩]).1.map GNode.id =
      ["ns-group-a", "pod-a-p"] ∧
    (dashboardEffect (dashboardEffect ([], []) [] [] [⟨"a", "p", []⟩])
        [] [] [⟨"a", "p", []⟩]).1.map GNode.id =
      ["ns-group-a", "pod-a-p", "ns-group-a", "pod-a-p"] ∧
    dashboardEffect (dashboardEffect ([], []) [] [] [⟨"a", "p", []⟩])
        [] [] [⟨"a", "p", []⟩] ≠
      dashboardEffect ([], []) [] [] [⟨"a", "p", []⟩] := by
  decide

/-- C2 counterexample: the claim says the status-class function returns
the dedicated terminating class for a normalized `"terminating"` status.
It does not: `"terminating"` sits in the pending list, which is checked
first, so the dedicated branch is unreachable and the class is
`"pending"`. -/
theorem C2_terminating_class_counterexample :
    normalizeStatus "Terminating" = "terminating" ∧
    getStatusClass "Terminating" = "pending" ∧
    getStatusClass "Terminating" ≠ "terminating" := by
  decide

/-- C2 (amended): for every status normalizing to `"terminating"`, the
icon function returns the dedicated ⏸ glyph (its pending list omits
`"terminating"`), while the status-class function returns `"pending"`
(its pending list contains `"terminating"` and is checked before the
dedicated terminating branch, leaving that branch unreachable). -/
theorem C2_terminating_tiebreak (s : String)
    (h : normalizeStatus s = "terminating") :
    getStatusClass s = "pending" ∧ getStatusIcon s = "⏸" := by
  constructor
  · simp only [getStatusClass, h]
    decide
  · simp only [getStatusIcon, h]
    decide

/-- C2 witness: the amended claim at the concrete raw status
`"Terminating"`. -/
theorem C2_terminating_tiebreak_witness :
    getStatusClass "Terminating" = "pending" ∧ getStatusIcon "Terminating" = "⏸" :=
  C2_terminating_tiebreak "Terminating" (by decide)

/-- C4 counterexample: the claim says an ingress whose rule references a
backend service with no corresponding service record contributes no edge.
The builder pushes the edge anyway, targeting the id the missing service
would have had, and that target is not the id of any emitted node. -/
theorem C4_dangling_target_counterexample :
    (buildGraph [⟨"a", "i", [⟨[some "missing"]⟩]⟩] [] []).2.map GEdge.target =
      ["svc-a-missing"] ∧
    "svc-a-missing" ∉
      (buildGraph [⟨"a", "i", [⟨[some "missing"]⟩]⟩] [] []).1.map GNode.id := by
  decide

/-- C3: for every service and pod of the same namespace (in well-formed
collections whose per-kind namespace-name joins are distinct), the number
of edges from the service's node to the pod's node is 1 exactly when the
service has a selector that is a subset of the pod's labels (every
selector key present with an equal value), and 0 otherwise; in particular
a service with no selector produces no edge, and a pod matching several
services receives one edge per matching service. -/
theorem C3_selector_subset_edges (i : List IngressRec) (s : List ServiceRec) (p : List PodRec)
    (HS : (s.map (fun r => joinedKey r.ns r.name)).Nodup)
    (HP : (p.map (fun r => joinedKey r.ns r.name)).Nodup)
    (svc : ServiceRec) (pod : PodRec) (hsvc : svc ∈ s) (hpod : pod ∈ p)
    (hns : svc.ns = pod.ns) :
    ((buildGraph i s p).2.filter (fun e =>
        e.source == svcNodeId svc.ns svc.name &&
        e.target == podNodeId pod.ns pod.name)).length =
      (match svc.selector with
       | some sel => if selectorMatches sel pod.labels then 1 else 0
       | none => 0) := by
  have hpnodup : p.Nodup := List.Nodup.of_map _ HP
  have hbucketSvcIds : ((nsServices s pod.ns).map
      (fun r => svcNodeId pod.ns r.name)).Nodup :=
    bucket_tagged_nodup s ServiceRec.ns ServiceRec.name svcNodeId
      (fun a b c d h => svcNodeId_inj h) HS pod.ns (nsServices s pod.ns) rfl
  have hPodBucketNodup : (nsPods p pod.ns).Nodup := by
    unfold nsPods
    exact hpnodup.filter _
  have hPodInBucket : pod ∈ nsPods p pod.ns := by
    unfold nsPods
    exact List.mem_filter.mpr ⟨hpod, by simp⟩
  have hSvcBucketNodup : (nsServices s pod.ns).Nodup := by
    unfold nsServices
    exact (List.Nodup.of_map _ HS).filter _
  have hSvcInBucket : svc ∈ nsServices s pod.ns := by
    unfold nsServices
    exact List.mem_filter.mpr ⟨hsvc, by simp [hns]⟩
  -- a pod edge of namespace ns whose target matches our pod forces ns = pod.ns
  have htarget : ∀ (ns : String) (pod' : PodRec), pod' ∈ nsPods p ns →
      podNodeId ns pod'.name = podNodeId pod.ns pod.name → pod' = pod ∧ ns = pod.ns := by
    intro ns pod' hpod' heq
    have hmem := List.mem_filter.mp hpod'
    have hns' : pod'.ns = ns := by simpa using hmem.2
    have hk := podNodeId_inj heq
    rw [← hns'] at hk
    have := List.inj_on_of_nodup_map HP hmem.1 hpod hk
    exact ⟨this, by rw [← hns', this]⟩
  -- ingress edges never satisfy the predicate (source tag mismatch)
  have hing0 : ∀ (ns : String),
      ((nsIngresses i ns).flatMap (ingEdgesFor ns)).countP (fun e =>
        e.source == svcNodeId svc.ns svc.name &&
        e.target == podNodeId pod.ns pod.name) = 0 := by
    intro ns
    refine List.countP_eq_zero.mpr ?_
    intro e he hq
    rcases List.mem_flatMap.mp he with ⟨ing, _, he2⟩
    obtain ⟨hsrc, _, _⟩ := mem_ingEdgesFor he2
    rw [Bool.and_eq_true] at hq
    have h1 := hq.1
    rw [beq_iff_eq] at h1
    rw [hsrc] at h1
    exact svcNodeId_ne_ingNodeId svc.ns svc.name ns ing.name h1.symm
  rw [← List.countP_eq_length_filter, buildGraph_edges, countP_flatMap_sum]
  rw [sum_eq_single _ _ pod.ns (sortStrings_nodup nodup_namespacesOf)
    (mem_sortStrings.mpr (mem_namespacesOf.mpr
      (Or.inr (Or.inr (List.mem_map_of_mem _ hpod)))))
    ?_]
  · -- the pod's own namespace: count within its bucket
    unfold nsEdges
    rw [List.countP_append, hing0, Nat.zero_add, countP_flatMap_sum]
    rw [sum_eq_single _ _ pod hPodBucketNodup hPodInBucket ?_]
    · -- the pod itself: count over the service map
      unfold podEdgesFor
      rw [countP_filterMap_eq, buildServiceMap_eq pod.ns (nsServices s pod.ns) hbucketSvcIds,
        countP_filterMap_eq]
      rcases hsel : svc.selector with _ | sel
      · -- no selector: no entry of the map can have our service's node id
        refine List.countP_eq_zero.mpr ?_
        intro a ha hga
        rcases hasel : a.selector with _ | sel'
        · simp [hasel] at hga
        · rcases hm' : selectorMatches sel' pod.labels with _ | _
          · simp [hasel, hm'] at hga
          · simp [hasel, hm'] at hga
            have hk := svcNodeId_inj hga
            have hans : a.ns = pod.ns := by
              simpa using (List.mem_filter.mp ha).2
            rw [← hans] at hk
            have hasvc := List.inj_on_of_nodup_map HS (List.mem_filter.mp ha).1 hsvc hk
            rw [hasvc, hsel] at hasel
            cases hasel
      · rcases hm : selectorMatches sel pod.labels with _ | _
        · -- selector present but not matching: our service contributes nothing,
          -- and no other service can carry our service's node id
          simp only [hm]
          refine List.countP_eq_zero.mpr ?_
          intro a ha hga
          rcases hasel : a.selector with _ | sel'
          · simp [hasel] at hga
          · rcases hm' : selectorMatches sel' pod.labels with _ | _
            · simp [hasel, hm'] at hga
            · simp [hasel, hm'] at hga
              have hk := svcNodeId_inj hga
              have hans : a.ns = pod.ns := by
                simpa using (List.mem_filter.mp ha).2
              rw [← hans] at hk
              have hasvc := List.inj_on_of_nodup_map HS (List.mem_filter.mp ha).1 hsvc hk
              rw [hasvc, hsel] at hasel
              rw [Option.some.injEq] at hasel
              rw [← hasel] at hm'
              rw [hm] at hm'
              cases hm'
        · -- selector present and matching: exactly the one edge
          simp only [hm]
          refine countP_eq_one_single _ _ svc hSvcBucketNodup hSvcInBucket ?_ ?_
          · simp [hsel, hm, hns]
          · intro a ha hga
            rcases hasel : a.selector with _ | sel'
            · simp [hasel] at hga
            · rcases hm' : selectorMatches sel' pod.labels with _ | _
              · simp [hasel, hm'] at hga
              · simp [hasel, hm'] at hga
                have hk := svcNodeId_inj hga
                have hans : a.ns = pod.ns := by
                  simpa using (List.mem_filter.mp ha).2
                rw [← hans] at hk
                exact List.inj_on_of_nodup_map HS (List.mem_filter.mp ha).1 hsvc hk
    · -- other pods in the same bucket contribute nothing
      intro pod' hpod' hne
      refine List.countP_eq_zero.mpr ?_
      intro e he hq
      obtain ⟨htgt, _, _⟩ := mem_podEdgesFor he
      rw [Bool.and_eq_true] at hq
      have h2 := hq.2
      rw [beq_iff_eq] at h2
      rw [htgt] at h2
      exact hne (htarget pod.ns pod' hpod' h2).1
  · -- other namespaces contribute nothing
    intro ns hnsmem hne
    unfold nsEdges
    rw [List.countP_append, hing0, Nat.zero_add]
    refine List.countP_eq_zero.mpr ?_
    intro e he hq
    rcases List.mem_flatMap.mp he with ⟨pod', hpod', he2⟩
    obtain ⟨htgt, _, _⟩ := mem_podEdgesFor he2
    rw [Bool.and_eq_true] at hq
    have h2 := hq.2
    rw [beq_iff_eq] at h2
    rw [htgt] at h2
    exact hne (htarget ns pod' hpod' h2).2

/-- C3 witness: the spec's example — one service with selector
`{app: "x"}` and two pods labelled `{app: "x"}` and `{app: "y"}` — yields
exactly one edge, to the matching pod, and none to the other. -/
theorem C3_selector_subset_edges_witness :
    ((buildGraph [] [⟨"default", "s", some [("app", "x")]⟩]
        [⟨"default", "p1", [("app", "x")]⟩, ⟨"default", "p2", [("app", "y")]⟩]).2.filter
      (fun e => e.source == svcNodeId "default" "s" &&
        e.target == podNodeId "default" "p1")).length = 1 ∧
    ((buildGraph [] [⟨"default", "s", some [("app", "x")]⟩]
        [⟨"default", "p1", [("app", "x")]⟩, ⟨"default", "p2", [("app", "y")]⟩]).2.filter
      (fun e => e.source == svcNodeId "default" "s" &&
        e.target == podNodeId "default" "p2")).length = 0 := by
  constructor
  · have h := C3_selector_subset_edges [] [⟨"default", "s", some [("app", "x")]⟩]
      [⟨"default", "p1", [("app", "x")]⟩, ⟨"default", "p2", [("app", "y")]⟩]
      (by decide) (by decide) ⟨"default", "s", some [("app", "x")]⟩
      ⟨"default", "p1", [("app", "x")]⟩ (by decide) (by decide) rfl
    exact h.trans (by decide)
  · have h := C3_selector_subset_edges [] [⟨"default", "s", some [("app", "x")]⟩]
      [⟨"default", "p1", [("app", "x")]⟩, ⟨"default", "p2", [("app", "y")]⟩]
      (by decide) (by decide) ⟨"default", "s", some [("app", "x")]⟩
      ⟨"default", "p2", [("app", "y")]⟩ (by decide) (by decide) rfl
    exact h.trans (by decide)

/-- C4 (amended): every edge's source is the id of an emitted node, and
every service→pod edge (stroke `#34d399`) also has its target among the
emitted node ids; ingress→service edges are emitted without an existence
check on the backend, so only their source is guaranteed. -/
theorem C4_edge_endpoints (i : List IngressRec) (s : List ServiceRec) (p : List PodRec) :
    ∀ e ∈ (buildGraph i s p).2,
      e.source ∈ (buildGraph i s p).1.map GNode.id ∧
      (e.stroke = "#34d399" → e.target ∈ (buildGraph i s p).1.map GNode.id) := by
  intro e he
  rw [buildGraph_edges] at he
  rw [buildGraph_ids]
  rcases List.mem_flatMap.mp he with ⟨ns, hns, he2⟩
  unfold nsEdges at he2
  rcases List.mem_append.mp he2 with h1 | h1
  · rcases List.mem_flatMap.mp h1 with ⟨ing, hing, he3⟩
    obtain ⟨hsrc, hstroke, _⟩ := mem_ingEdgesFor he3
    constructor
    · refine List.mem_flatMap.mpr ⟨ns, hns, ?_⟩
      rw [hsrc]
      exact List.mem_cons_of_mem _ (mem_childIds_ing hing)
    · intro hst
      rw [hstroke] at hst
      exact absurd hst (by decide)
  · rcases List.mem_flatMap.mp h1 with ⟨pod, hpod, he3⟩
    obtain ⟨htgt, _, entry, hentry, hsrc, _⟩ := mem_podEdgesFor he3
    rcases mem_buildServiceMap (nsServices s ns) [] entry
        (by simpa [buildServiceMap] using hentry) with h0 | ⟨r, hr, hk, _⟩
    · cases h0
    · constructor
      · refine List.mem_flatMap.mpr ⟨ns, hns, ?_⟩
        rw [hsrc, hk]
        exact List.mem_cons_of_mem _ (mem_childIds_svc hr)
      · intro _
        refine List.mem_flatMap.mpr ⟨ns, hns, ?_⟩
        rw [htgt]
        exact List.mem_cons_of_mem _ (mem_childIds_pod hpod)

/-- C4 witness: the amended claim applied to the concrete service→pod
edge of a one-service one-pod build. -/
theorem C4_edge_endpoints_witness :
    "svc-default-s" ∈
      (buildGraph [] [⟨"default", "s", some [("app", "x")]⟩]
        [⟨"default", "p1", [("app", "x")]⟩]).1.map GNode.id ∧
    "pod-default-p1" ∈
      (buildGraph [] [⟨"default", "s", some [("app", "x")]⟩]
        [⟨"default", "p1", [("app", "x")]⟩]).1.map GNode.id := by
  have h := C4_edge_endpoints [] [⟨"default", "s", some [("app", "x")]⟩]
    [⟨"default", "p1", [("app", "x")]⟩]
    ⟨"e-svc-default-s-pod-default-p1", "svc-default-s", "pod-default-p1", "#34d399"⟩
    (by decide)
  exact ⟨h.1, h.2 rfl⟩

/-- C5 counterexample: the claim says no two distinct records produce the
same node id. Hyphens in namespace names break this: the services
(namespace `"a-b"`, name `"c"`) and (namespace `"a"`, name `"b-c"`) are
distinct records, yet both produce the node id `"svc-a-b-c"`, so the node
id list of one pass has a duplicate. -/
theorem C5_duplicate_id_counterexample :
    (⟨"a-b", "c", none⟩ : ServiceRec) ≠ ⟨"a", "b-c", none⟩ ∧
    ¬ ((buildGraph [] [⟨"a-b", "c", none⟩, ⟨"a", "b-c", none⟩] []).1.map
        GNode.id).Nodup := by
  decide

/-- C5 (amended): every emitted node id has the deterministic form
`"{tag}-{namespace}-{name}"` (tags svc/ing/pod for record nodes, plus the
`ns-group` containers), and the ids of one pass are pairwise distinct
provided no two distinct records of the same kind share the same
`"{namespace}-{name}"` join string — in particular whenever per-kind
(namespace, name) pairs are distinct and the join is unambiguous (e.g.
hyphen-free namespace names). -/
theorem C5_id_form_and_uniqueness (i : List IngressRec) (s : List ServiceRec)
    (p : List PodRec)
    (HS : (s.map (fun r => joinedKey r.ns r.name)).Nodup)
    (HI : (i.map (fun r => joinedKey r.ns r.name)).Nodup)
    (HP : (p.map (fun r => joinedKey r.ns r.name)).Nodup) :
    ((buildGraph i s p).1.map GNode.id).Nodup ∧
    ∀ x ∈ (buildGraph i s p).1.map GNode.id,
      (∃ ns, (ns ∈ i.map IngressRec.ns ∨ ns ∈ s.map ServiceRec.ns ∨
        ns ∈ p.map PodRec.ns) ∧ x = nsGroupId ns) ∨
      (∃ r ∈ s, x = svcNodeId r.ns r.name) ∨
      (∃ r ∈ i, x = ingNodeId r.ns r.name) ∨
      (∃ r ∈ p, x = podNodeId r.ns r.name) := by
  constructor
  · rw [buildGraph_ids]
    refine List.nodup_flatMap.mpr ⟨?_, ?_⟩
    · intro ns _
      exact perNs_nodup i s p HS HI HP ns
    · exact List.Pairwise.imp (fun hab => perNs_disjoint i s p HS HI HP hab)
        (sortStrings_nodup nodup_namespacesOf)
  · intro x hx
    rw [buildGraph_ids] at hx
    rcases List.mem_flatMap.mp hx with ⟨ns, hns, hx2⟩
    have hnsm := mem_sortStrings.mp hns
    rcases List.mem_cons.mp hx2 with rfl | hxc
    · exact Or.inl ⟨ns, mem_namespacesOf.mp hnsm, rfl⟩
    · rcases mem_childIds_iff.mp hxc with ⟨r, hr, hrns, rfl⟩ | ⟨r, hr, hrns, rfl⟩ |
        ⟨r, hr, hrns, rfl⟩
      · exact Or.inr (Or.inl ⟨r, hr, by rw [hrns]⟩)
      · exact Or.inr (Or.inr (Or.inl ⟨r, hr, by rw [hrns]⟩))
      · exact Or.inr (Or.inr (Or.inr ⟨r, hr, by rw [hrns]⟩))

/-- C5 witness: the amended claim's uniqueness conclusion at a concrete
well-formed one-service one-pod input. -/
theorem C5_id_form_and_uniqueness_witness :
    ((buildGraph [] [⟨"default", "s", none⟩] [⟨"default", "p", []⟩]).1.map
      GNode.id).Nodup :=
  (C5_id_form_and_uniqueness [] [⟨"default", "s", none⟩] [⟨"default", "p", []⟩]
    (by decide) (by decide) (by decide)).1

/-- C6: `extractValue` never raises — every raised error of the modelled
path library is caught and recovered as `undefined` (`none`), an
unresolved path is `undefined`, and a successful query result is passed
through unchanged. -/
theorem C6_extraction_never_raises (doc : Json) (path : String) :
    (∀ e, jsonPathQuery path doc = Except.error e → extractValue doc path = none) ∧
    (jsonPathQuery path doc = Except.ok none → extractValue doc path = none) ∧
    (∀ v, jsonPathQuery path doc = Except.ok v → extractValue doc path = v) := by
  refine ⟨fun e he => ?_, fun h => ?_, fun v hv => ?_⟩ <;>
    simp [extractValue, *]

/-- C6 witness: a malformed path (unclosed bracket) and an unresolved
path (missing intermediate key) both yield `none` on a concrete document. -/
theorem C6_extraction_never_raises_witness :
    extractValue (Json.obj [("a", Json.num 1)]) "$[" = none ∧
    extractValue (Json.obj [("a", Json.num 1)]) "$.missing.deeper" = none :=
  ⟨(C6_extraction_never_raises (Json.obj [("a", Json.num 1)]) "$[").1
      "missing closing bracket" rfl,
   (C6_extraction_never_raises (Json.obj [("a", Json.num 1)]) "$.missing.deeper").2.1
      rfl⟩

/-- C7: for every GVK with no native profile entry, resolution returns
the generic fallback profile — exactly the three columns Name (link),
Namespace (text), Age (age), in that order, and no actions. -/
theorem C7_generic_fallback (gvk : GVK)
    (h : NATIVE_PROFILES.lookup (getProfileKey gvk) = none) :
    resolveResourceProfile gvk = getGenericProfile gvk ∧
    (resolveResourceProfile gvk).columns = [
      ⟨"Name", "$.metadata.name", ColumnType.link, none⟩,
      ⟨"Namespace", "$.metadata.namespace", ColumnType.text, none⟩,
      ⟨"Age", "$.metadata.creationTimestamp", ColumnType.age, none⟩] ∧
    (resolveResourceProfile gvk).columns.length = 3 ∧
    (resolveResourceProfile gvk).actions = none := by
  simp [resolveResourceProfile, h, getGenericProfile]

/-- C7 witness: the generic fallback at a concrete GVK with no native
entry. -/
theorem C7_generic_fallback_witness :
    resolveResourceProfile ⟨"example.com", "v1", "Widget"⟩ =
      getGenericProfile ⟨"example.com", "v1", "Widget"⟩ ∧
    (resolveResourceProfile ⟨"example.com", "v1", "Widget"⟩).columns.length = 3 :=
  ⟨(C7_generic_fallback ⟨"example.com", "v1", "Widget"⟩ (by decide)).1,
   (C7_generic_fallback ⟨"example.com", "v1", "Widget"⟩ (by decide)).2.2.1⟩

/-- C8 counterexample: the claim says the empty-group and `"core"`-group
identities always resolve to the same profile. For a kind with no native
entry the generic fallback embeds the original identity, so the two
resolved profiles differ (in their recorded `gvk` field). -/
theorem C8_same_profile_counterexample :
    resolveResourceProfile ⟨"", "v1", "Widget"⟩ ≠
      resolveResourceProfile ⟨"core", "v1", "Widget"⟩ := by
  decide

/-- C8 (amended): the empty group is rewritten to `"core"`, so both
identities always compute the same lookup key; whenever that key has a
native entry they resolve to the same profile, and in the fallback case
the resolved profiles still agree on columns and actions, differing only
in the recorded identity. -/
theorem C8_group_normalization (v k : String) :
    getProfileKey ⟨"", v, k⟩ = getProfileKey ⟨"core", v, k⟩ ∧
    ((NATIVE_PROFILES.lookup (getProfileKey ⟨"", v, k⟩)).isSome →
      resolveResourceProfile ⟨"", v, k⟩ = resolveResourceProfile ⟨"core", v, k⟩) ∧
    (resolveResourceProfile ⟨"", v, k⟩).columns =
      (resolveResourceProfile ⟨"core", v, k⟩).columns ∧
    (resolveResourceProfile ⟨"", v, k⟩).actions =
      (resolveResourceProfile ⟨"core", v, k⟩).actions := by
  have hk : getProfileKey ⟨"", v, k⟩ = getProfileKey ⟨"core", v, k⟩ := by
    simp [getProfileKey]
  refine ⟨hk, ?_, ?_, ?_⟩ <;>
    · unfold resolveResourceProfile
      rw [hk]
      cases NATIVE_PROFILES.lookup (getProfileKey ⟨"core", v, k⟩) <;>
        simp [getGenericProfile]

/-- C8 witness: the amended claim at the native key `core/v1/Pod`,
discharging the native-hit hypothesis. -/
theorem C8_group_normalization_witness :
    getProfileKey ⟨"", "v1", "Pod"⟩ = getProfileKey ⟨"core", "v1", "Pod"⟩ ∧
    resolveResourceProfile ⟨"", "v1", "Pod"⟩ =
      resolveResourceProfile ⟨"core", "v1", "Pod"⟩ :=
  ⟨(C8_group_normalization "v1" "Pod").1,
   (C8_group_normalization "v1" "Pod").2.1 (by decide)⟩

/-- C9: for every timestamp not later than now, `formatAge` renders the
difference in whole seconds using only the largest applicable unit (days,
else hours, else minutes, else seconds), and in particular an age of
exactly 3599 seconds renders as `"59m"` while 3600 seconds renders as
`"1h"`. -/
theorem C9_age_largest_unit :
    (∀ (nowMs tsMs : Int), tsMs ≤ nowMs →
      formatAge (some tsMs) nowMs = ageSpecRender (Int.fdiv (nowMs - tsMs) 1000)) ∧
    formatAge (some 0) 3599000 = "59m" ∧
    formatAge (some 0) 3600000 = "1h" := by
  refine ⟨?_, by decide, by decide⟩
  intro nowMs tsMs h
  simp only [formatAge, ageSpecRender,
    show ∀ a : Int, a.fdiv 1000 = a / 1000 from fun a => Int.fdiv_eq_ediv a (by omega),
    show ∀ a : Int, a.fdiv 60 = a / 60 from fun a => Int.fdiv_eq_ediv a (by omega),
    show ∀ a : Int, a.fdiv 24 = a / 24 from fun a => Int.fdiv_eq_ediv a (by omega),
    show ∀ a : Int, a.fdiv 86400 = a / 86400 from fun a => Int.fdiv_eq_ediv a (by omega),
    show ∀ a : Int, a.fdiv 3600 = a / 3600 from fun a => Int.fdiv_eq_ediv a (by omega)]
  split_ifs <;> first | omega | (congr 2 <;> first | rfl | omega)

/-- C9 witness: the general rendering law applied at a concrete
timestamp exactly 3599 seconds old. -/
theorem C9_age_largest_unit_witness :
    formatAge (some 0) 3599000 = ageSpecRender (Int.fdiv (3599000 - 0) 1000) :=
  C9_age_largest_unit.1 3599000 0 (by omega)

/-- C10: a pod record with a (truthy) deletion timestamp is reported as
`"Terminating"` regardless of its declared phase; otherwise the trimmed
phase is returned with its first letter upper-cased and the remainder
lower-cased, and a missing or (after trimming) empty phase yields
`"Unknown"`. -/
theorem C10_pod_status (md : Option PodMetadata) (st : Option PodStatusDoc) :
    (jsTruthyStr (md.bind PodMetadata.deletionTimestamp) = true →
      getPodStatus ⟨md, st⟩ = "Terminating") ∧
    (jsTruthyStr (md.bind PodMetadata.deletionTimestamp) = false →
      (jsTrim (jsOrEmpty (st.bind PodStatusDoc.phase)) = "" →
        getPodStatus ⟨md, st⟩ = "Unknown") ∧
      (jsTrim (jsOrEmpty (st.bind PodStatusDoc.phase)) ≠ "" →
        getPodStatus ⟨md, st⟩ =
          capFirstLowerRest (jsTrim (jsOrEmpty (st.bind PodStatusDoc.phase))))) := by
  constructor
  · intro h
    simp [getPodStatus, h]
  · intro h
    constructor <;> intro h2 <;> simp [getPodStatus, h, h2]

/-- C10 witness: a deleted pod in `running` phase reports
`"Terminating"`; without the deletion marker the same phase reports
`"Running"`. -/
theorem C10_pod_status_witness :
    getPodStatus ⟨some ⟨some "2024-01-01T00:00:00Z"⟩, some ⟨some "running"⟩⟩ =
      "Terminating" ∧
    getPodStatus ⟨none, some ⟨some "running"⟩⟩ = "Running" := by
  refine ⟨(C10_pod_status (some ⟨some "2024-01-01T00:00:00Z"⟩)
    (some ⟨some "running"⟩)).1 (by decide), ?_⟩
  have h := ((C10_pod_status none (some ⟨some "running"⟩)).2 (by decide)).2 (by decide)
  rw [h]
  decide

end Teleskope
